import Mathlib

/-!
Shallow embedding of the tab/session lifecycle of pt (src/main.rs, src/hacks.rs),
a GTK/VTE tabbed terminal. The gtk::Notebook is modelled as the ordered list of
(terminal handle, tab-label text); the page_meta HashMap as an association list;
window close() as a signal counter. All callbacks run on the single GTK main
thread, so each handler is a plain state-to-state function.
-/

namespace PT

/-- Identity of a vte::Terminal widget, used as the page_meta map key and as a
notebook child. Distinct widgets are distinct handles. -/
abbrev Handle := Nat

/-- Env (main.rs lines 64-68): snapshot of user, host and current dir taken at
startup and immutable afterwards. -/
structure Env where
  user : String
  host : String
  cur_dir : String
deriving DecidableEq, Repr

/-- Meta (main.rs lines 90-93): per-session process metadata. The pid field is
u32 in the source; only non-negative i32 pids are ever stored, so Nat is exact. -/
structure Meta where
  pid : Option Nat
deriving DecidableEq, Repr

/-- State of the Term window (TermImpl, main.rs lines 95-101, plus the window
chrome title and a counter of close() calls). pages is the notebook: ordered
children with their tab-label text (the gtk Label only adds middle-ellipsizing
presentation on top of this text). currentPage is the gtk notebook page index,
-1 when no page is current. showTabs mirrors set_show_tabs. -/
structure TermState where
  pages : List (Handle × String)
  currentPage : Int
  page_meta : List (Handle × Meta)
  env : Env
  windowTitle : String
  closeSignals : Nat
  showTabs : Bool
deriving DecidableEq, Repr

/-- Keys of an association list. -/
def keys {β : Type} (l : List (Handle × β)) : List Handle := l.map Prod.fst

/-- HashMap::get on the page_meta map. -/
def metaLookup : List (Handle × Meta) → Handle → Option Meta
  | [], _ => none
  | p :: rest, k => if p.1 = k then some p.2 else metaLookup rest k

/-- HashMap::remove on the page_meta map. -/
def metaRemove : List (Handle × Meta) → Handle → List (Handle × Meta)
  | [], _ => []
  | p :: rest, k => if p.1 = k then metaRemove rest k else p :: metaRemove rest k

/-- HashMap::insert on the page_meta map: overwrite an existing key, else add. -/
def metaInsert (m : List (Handle × Meta)) (k : Handle) (v : Meta) :
    List (Handle × Meta) :=
  if k ∈ keys m then m.map (fun p => if p.1 = k then (k, v) else p)
  else m ++ [(k, v)]

/-- The get_mut update in the spawn callback (main.rs lines 297-300): if the
handle is present, set its pid; otherwise do nothing. -/
def metaSetPid (m : List (Handle × Meta)) (k : Handle) (pid : Nat) :
    List (Handle × Meta) :=
  m.map (fun p => if p.1 = k then (p.1, Meta.mk (some pid)) else p)

/-- Tab-label text of a notebook child, if present. -/
def lookupLabel : List (Handle × String) → Handle → Option String
  | [], _ => none
  | p :: rest, k => if p.1 = k then some p.2 else lookupLabel rest k

/-- gtk set_tab_label by child widget: replace the label text of that child. -/
def setTabLabel (ps : List (Handle × String)) (t : Handle) (lbl : String) :
    List (Handle × String) :=
  ps.map (fun p => if p.1 = t then (p.1, lbl) else p)

/-- gtk page_num: index of a child in the notebook, if present. -/
def pageNumAux : Nat → List (Handle × String) → Handle → Option Nat
  | _, [], _ => none
  | n, p :: rest, k => if p.1 = k then some n else pageNumAux (n + 1) rest k

/-- gtk page_num starting from index 0. -/
def pageNum (ps : List (Handle × String)) (k : Handle) : Option Nat :=
  pageNumAux 0 ps k

/-- Term::page_label (main.rs lines 243-256): the text of a tab label. With no
title it falls back to the env snapshot; the returned string is the full label
(ellipsizing is display-only). -/
def page_label (env : Env) (page_number : Nat) (title : Option String) : String :=
  let title := title.getD (env.user ++ "@" ++ env.host ++ ":" ++ env.cur_dir)
  toString page_number ++ ". " ++ title

/-- The loop of Term::remove_tab (main.rs lines 226-236): iterate the snapshot
of children with their original indices; on the matching child remove its meta
entry and its page; every child after the match gets its label rebuilt as
page_label of its original index with no title. Children of a gtk container are
distinct widgets, so the matched child occurs once and removing it in place is
exactly remove_page at the original index. -/
def remove_tab_go (env : Env) (terminal : Handle) :
    List (Handle × String) → Nat → Bool → List (Handle × Meta) →
    List (Handle × String) × List (Handle × Meta)
  | [], _, _, page_meta => ([], page_meta)
  | (child, label) :: rest, page, removed, page_meta =>
    if child = terminal then
      remove_tab_go env terminal rest (page + 1) true (metaRemove page_meta terminal)
    else if removed then
      let r := remove_tab_go env terminal rest (page + 1) removed page_meta
      ((child, page_label env page none) :: r.1, r.2)
    else
      let r := remove_tab_go env terminal rest (page + 1) removed page_meta
      ((child, label) :: r.1, r.2)

/-- Term::remove_tab (main.rs lines 221-241): run the loop, then
set_show_tabs(n_pages greater than 1), and close() when n_pages is 0. -/
def remove_tab (s : TermState) (terminal : Handle) : TermState :=
  let r := remove_tab_go s.env terminal s.pages 0 false s.page_meta
  { s with
    pages := r.1
    page_meta := r.2
    showTabs := decide (r.1.length > 1)
    closeSignals := if r.1.length = 0 then s.closeSignals + 1 else s.closeSignals }

/-- gtk_notebook_set_current_page semantics (GTK3 documented behaviour): a
negative index (the None case, produced by checked_sub underflow and passed as
-1 by the binding) selects the last page; an index at or past n_pages does
nothing; otherwise the page becomes current. -/
def set_current_page (s : TermState) (page : Option Nat) : TermState :=
  match page with
  | none =>
    if s.pages.length = 0 then s
    else { s with currentPage := ((s.pages.length - 1 : Nat) : Int) }
  | some n =>
    if n < s.pages.length then { s with currentPage := (n : Int) } else s

/-- The Alt+digit branch of the key-press handler (main.rs lines 151-172).
keyDigit models keyval to_unicode followed by to_digit 10; mod1Held models the
MOD1 modifier test. The u32 checked_sub 1 yields none exactly on digit 0. The
returned Bool is the handler result (true consumes the event). -/
def key_press (s : TermState) (mod1Held : Bool) (keyDigit : Option Nat) :
    TermState × Bool :=
  let set_tab : Option Nat := if mod1Held then keyDigit else none
  match set_tab with
  | some new_tab =>
    (set_current_page s (if new_tab = 0 then none else some (new_tab - 1)), true)
  | none => (s, false)

/-- Rust panics abort the whole process; fatal startup failures are modelled as
Except.error at the top level. -/
inductive Fatal where
  | shellUnset
deriving DecidableEq, Repr

/-- Term::new_terminal (main.rs lines 258-305): build the vte widget (a fresh
handle) and issue the async spawn. Reading SHELL uses expect, so a missing
SHELL panics the whole application (line 270). The async completion is
modelled separately as spawn_callback; the working directory only affects the
spawned process, not the modelled state. -/
def new_terminal (shellEnv : Option String) (fresh : Handle) : Except Fatal Handle :=
  match shellEnv with
  | none => Except.error Fatal.shellUnset
  | some _ => Except.ok fresh

/-- The spawn_async completion callback (main.rs lines 284-301): on a reported
error, or a pid below 0, log and remove the tab; otherwise store the pid (as
u32; the value is non-negative i32 so toNat is exact) for the handle if it is
still registered. -/
def spawn_callback (s : TermState) (terminal : Handle) (pid : Int)
    (error : Option String) : TermState :=
  if error.isSome then remove_tab s terminal
  else if pid < 0 then remove_tab s terminal
  else { s with page_meta := metaSetPid s.page_meta terminal pid.toNat }

/-- Term::add_new_tab (main.rs lines 324-369): create the terminal (aborts if
SHELL is unset), register Meta::default for it, append a page labelled
page_label of n_pages + 1 with no title, set tab-strip visibility, and make the
new page current. The exited and title-notify handlers it connects are modelled
as remove_tab and title_notify. -/
def add_new_tab (s : TermState) (shellEnv : Option String) (fresh : Handle) :
    Except Fatal TermState :=
  match new_terminal shellEnv fresh with
  | Except.error e => Except.error e
  | Except.ok terminal =>
    let page_number := s.pages.length + 1
    let meta1 := metaInsert s.page_meta terminal (Meta.mk none)
    let label := page_label s.env page_number none
    let page := s.pages.length
    let pages1 := s.pages ++ [(terminal, label)]
    let s1 : TermState :=
      { s with
        pages := pages1
        page_meta := meta1
        showTabs := decide (pages1.length > 1) }
    Except.ok (set_current_page s1 (some page))

/-- Term::new (main.rs lines 122-134): fresh window state over the env
snapshot, then the initial add_new_tab. -/
def Term_new (env : Env) (shellEnv : Option String) (fresh : Handle) :
    Except Fatal TermState :=
  let s0 : TermState :=
    { pages := []
      currentPage := -1
      page_meta := []
      env := env
      windowTitle := ""
      closeSignals := 0
      showTabs := false }
  add_new_tab s0 shellEnv fresh

/-- The connect_window_title_notify handler (main.rs lines 349-358): when the
terminal reports a title and is still a notebook page at index num, rebuild its
label as page_label of num + 1 with the title, set the tab label, and set the
window chrome title. newTitle models window_title of the emitting terminal. -/
def title_notify (s : TermState) (terminal : Handle) (newTitle : Option String) :
    TermState :=
  match newTitle with
  | none => s
  | some new_title =>
    match pageNum s.pages terminal with
    | none => s
    | some num =>
      let label := page_label s.env (num + 1) (some new_title)
      { s with
        pages := setTabLabel s.pages terminal label
        windowTitle := new_title }

/-- Well-formedness tying the notebook and the meta store together: children
are distinct widgets, meta keys are distinct, and both index the same handles. -/
def StateWF (s : TermState) : Prop :=
  (keys s.pages).Nodup ∧ (keys s.page_meta).Nodup ∧
  (∀ h ∈ keys s.pages, h ∈ keys s.page_meta) ∧
  (∀ h ∈ keys s.page_meta, h ∈ keys s.pages)

instance (s : TermState) : Decidable (StateWF s) := by
  unfold StateWF; infer_instance

/-! Helper lemmas about the map and notebook primitives. -/

/-- Removing every occurrence of a key from a key list. -/
def keysErase : List Handle → Handle → List Handle
  | [], _ => []
  | h :: rest, t => if h = t then keysErase rest t else h :: keysErase rest t

theorem mem_keysErase {l : List Handle} {t a : Handle} :
    a ∈ keysErase l t ↔ a ∈ l ∧ a ≠ t := by
  induction l with
  | nil => simp [keysErase]
  | cons h rest ih =>
    by_cases hh : h = t
    · subst hh
      rw [keysErase, if_pos rfl, ih]
      constructor
      · rintro ⟨ha, hne⟩
        exact ⟨List.mem_cons_of_mem _ ha, hne⟩
      · rintro ⟨ha, hne⟩
        rcases List.mem_cons.mp ha with rfl | ha
        · exact absurd rfl hne
        · exact ⟨ha, hne⟩
    · simp only [keysErase, if_neg hh, List.mem_cons, ih]
      constructor
      · rintro (rfl | ⟨ha, hne⟩)
        · exact ⟨Or.inl rfl, hh⟩
        · exact ⟨Or.inr ha, hne⟩
      · rintro ⟨rfl | ha, hne⟩
        · exact Or.inl rfl
        · exact Or.inr ⟨ha, hne⟩

theorem not_mem_keysErase_self (l : List Handle) (t : Handle) :
    t ∉ keysErase l t := fun h => (mem_keysErase.mp h).2 rfl

theorem keysErase_of_not_mem {l : List Handle} {t : Handle} (h : t ∉ l) :
    keysErase l t = l := by
  induction l with
  | nil => rfl
  | cons a rest ih =>
    have ha : a ≠ t := fun e => h (e ▸ List.mem_cons_self a rest)
    simp only [keysErase, if_neg ha]
    rw [ih (fun hm => h (List.mem_cons_of_mem a hm))]

theorem nodup_keysErase {l : List Handle} (t : Handle) (h : l.Nodup) :
    (keysErase l t).Nodup := by
  induction l with
  | nil => exact List.nodup_nil
  | cons a rest ih =>
    rw [List.nodup_cons] at h
    by_cases ha : a = t
    · simpa [keysErase, ha] using ih h.2
    · rw [keysErase, if_neg ha, List.nodup_cons]
      exact ⟨fun hm => h.1 (mem_keysErase.mp hm).1, ih h.2⟩

theorem length_keysErase_of_mem {l : List Handle} {t : Handle}
    (hnd : l.Nodup) (hm : t ∈ l) : (keysErase l t).length + 1 = l.length := by
  induction l with
  | nil => cases hm
  | cons a rest ih =>
    rw [List.nodup_cons] at hnd
    by_cases ha : a = t
    · subst ha
      rw [keysErase, if_pos rfl, keysErase_of_not_mem hnd.1]
      simp
    · have hmr : t ∈ rest := by
        rcases List.mem_cons.mp hm with h | h
        · exact absurd h.symm ha
        · exact h
      rw [keysErase, if_neg ha]
      simp only [List.length_cons]
      have := ih hnd.2 hmr
      omega

theorem keys_cons {β : Type} (p : Handle × β) (l : List (Handle × β)) :
    keys (p :: l) = p.1 :: keys l := rfl

theorem keys_append {β : Type} (l1 l2 : List (Handle × β)) :
    keys (l1 ++ l2) = keys l1 ++ keys l2 := List.map_append _ _ _

theorem length_keys {β : Type} (l : List (Handle × β)) :
    (keys l).length = l.length := List.length_map _ _

theorem keys_metaRemove (m : List (Handle × Meta)) (t : Handle) :
    keys (metaRemove m t) = keysErase (keys m) t := by
  induction m with
  | nil => rfl
  | cons p rest ih =>
    by_cases hp : p.1 = t
    · rw [metaRemove, if_pos hp, keys_cons, keysErase, if_pos hp, ih]
    · rw [metaRemove, if_neg hp, keys_cons, keys_cons, keysErase, if_neg hp, ih]

theorem metaRemove_of_not_mem {m : List (Handle × Meta)} {t : Handle}
    (h : t ∉ keys m) : metaRemove m t = m := by
  induction m with
  | nil => rfl
  | cons p rest ih =>
    rw [keys_cons, List.mem_cons] at h
    push_neg at h
    rw [metaRemove, if_neg (fun e => h.1 e.symm), ih h.2]

theorem metaRemove_idem (m : List (Handle × Meta)) (t : Handle) :
    metaRemove (metaRemove m t) t = metaRemove m t := by
  apply metaRemove_of_not_mem
  rw [keys_metaRemove]
  exact not_mem_keysErase_self _ _

theorem metaLookup_eq_none_of_not_mem {m : List (Handle × Meta)} {t : Handle}
    (h : t ∉ keys m) : metaLookup m t = none := by
  induction m with
  | nil => rfl
  | cons p rest ih =>
    rw [keys_cons, List.mem_cons] at h
    push_neg at h
    rw [metaLookup, if_neg (fun e => h.1 e.symm)]
    exact ih h.2

theorem metaLookup_metaRemove_self (m : List (Handle × Meta)) (t : Handle) :
    metaLookup (metaRemove m t) t = none := by
  apply metaLookup_eq_none_of_not_mem
  rw [keys_metaRemove]
  exact not_mem_keysErase_self _ _

theorem metaLookup_metaRemove_ne {m : List (Handle × Meta)} {t h : Handle}
    (hne : h ≠ t) : metaLookup (metaRemove m t) h = metaLookup m h := by
  induction m with
  | nil => rfl
  | cons p rest ih =>
    by_cases hp : p.1 = t
    · rw [metaRemove, if_pos hp, metaLookup, if_neg (hp ▸ fun e => hne e.symm), ih]
    · by_cases hh : p.1 = h
      · rw [metaRemove, if_neg hp, metaLookup, if_pos hh, metaLookup, if_pos hh]
      · rw [metaRemove, if_neg hp, metaLookup, if_neg hh, metaLookup, if_neg hh, ih]

theorem keys_metaInsert (m : List (Handle × Meta)) (k : Handle) (v : Meta) :
    keys (metaInsert m k v) = if k ∈ keys m then keys m else keys m ++ [k] := by
  unfold metaInsert
  by_cases hk : k ∈ keys m
  · rw [if_pos hk, if_pos hk]
    unfold keys
    rw [List.map_map]
    congr 1
    funext p
    by_cases hp : p.1 = k
    · simp [Function.comp, hp]
    · simp [Function.comp, hp]
  · rw [if_neg hk, if_neg hk, keys_append]
    rfl

theorem keys_metaSetPid (m : List (Handle × Meta)) (k : Handle) (pid : Nat) :
    keys (metaSetPid m k pid) = keys m := by
  unfold metaSetPid keys
  rw [List.map_map]
  congr 1
  funext p
  by_cases hp : p.1 = k
  · simp [Function.comp, hp]
  · simp [Function.comp, hp]

/-! Lemmas about the remove_tab loop. -/

theorem remove_tab_go_keys (env : Env) (t : Handle) (ps : List (Handle × String))
    (n : Nat) (b : Bool) (m : List (Handle × Meta)) :
    keys (remove_tab_go env t ps n b m).1 = keysErase (keys ps) t := by
  induction ps generalizing n b m with
  | nil => rfl
  | cons p rest ih =>
    obtain ⟨c, lbl⟩ := p
    by_cases hc : c = t
    · rw [remove_tab_go, if_pos hc, keys_cons, keysErase, if_pos hc, ih]
    · rw [remove_tab_go, if_neg hc, keys_cons, keysErase, if_neg hc]
      cases b
      · simp only [Bool.false_eq_true, if_false, keys_cons, ih]
      · simp only [if_true, keys_cons, ih]

theorem remove_tab_go_meta (env : Env) (t : Handle) (ps : List (Handle × String))
    (n : Nat) (b : Bool) (m : List (Handle × Meta)) :
    (remove_tab_go env t ps n b m).2 =
      if t ∈ keys ps then metaRemove m t else m := by
  induction ps generalizing n b m with
  | nil => rfl
  | cons p rest ih =>
    obtain ⟨c, lbl⟩ := p
    by_cases hc : c = t
    · rw [remove_tab_go, if_pos hc, ih, keys_cons,
        if_pos (List.mem_cons.mpr (Or.inl hc.symm))]
      by_cases ht : t ∈ keys rest
      · rw [if_pos ht, metaRemove_idem]
      · rw [if_neg ht]
    · have hmem : t ∈ keys ((c, lbl) :: rest) ↔ t ∈ keys rest := by
        rw [keys_cons, List.mem_cons]
        exact ⟨fun hx => hx.resolve_left (fun e => hc e.symm), Or.inr⟩
      rw [remove_tab_go, if_neg hc]
      cases b
      · simp only [Bool.false_eq_true, if_false]
        rw [ih]
        by_cases ht : t ∈ keys rest
        · rw [if_pos ht, if_pos (hmem.mpr ht)]
        · rw [if_neg ht, if_neg (fun hx => ht (hmem.mp hx))]
      · simp only [if_true]
        rw [ih]
        by_cases ht : t ∈ keys rest
        · rw [if_pos ht, if_pos (hmem.mpr ht)]
        · rw [if_neg ht, if_neg (fun hx => ht (hmem.mp hx))]

theorem remove_tab_go_not_mem (env : Env) (t : Handle)
    {ps : List (Handle × String)} (n : Nat) (m : List (Handle × Meta))
    (h : t ∉ keys ps) : remove_tab_go env t ps n false m = (ps, m) := by
  induction ps generalizing n with
  | nil => rfl
  | cons p rest ih =>
    obtain ⟨c, lbl⟩ := p
    rw [keys_cons, List.mem_cons] at h
    push_neg at h
    rw [remove_tab_go, if_neg (fun e => h.1 e.symm)]
    simp only [Bool.false_eq_true, if_false]
    rw [ih (n + 1) h.2]

/-! Projection lemmas for remove_tab. -/

theorem remove_tab_pages (s : TermState) (t : Handle) :
    (remove_tab s t).pages = (remove_tab_go s.env t s.pages 0 false s.page_meta).1 :=
  rfl

theorem remove_tab_pages_keys (s : TermState) (t : Handle) :
    keys (remove_tab s t).pages = keysErase (keys s.pages) t :=
  remove_tab_go_keys s.env t s.pages 0 false s.page_meta

theorem remove_tab_page_meta (s : TermState) (t : Handle) :
    (remove_tab s t).page_meta =
      if t ∈ keys s.pages then metaRemove s.page_meta t else s.page_meta :=
  remove_tab_go_meta s.env t s.pages 0 false s.page_meta

theorem remove_tab_closeSignals (s : TermState) (t : Handle) :
    (remove_tab s t).closeSignals =
      if (remove_tab s t).pages.length = 0 then s.closeSignals + 1
      else s.closeSignals := rfl

theorem remove_tab_showTabs (s : TermState) (t : Handle) :
    (remove_tab s t).showTabs = decide ((remove_tab s t).pages.length > 1) := rfl

theorem remove_tab_env (s : TermState) (t : Handle) :
    (remove_tab s t).env = s.env := rfl

theorem remove_tab_currentPage (s : TermState) (t : Handle) :
    (remove_tab s t).currentPage = s.currentPage := rfl

theorem remove_tab_windowTitle (s : TermState) (t : Handle) :
    (remove_tab s t).windowTitle = s.windowTitle := rfl

theorem remove_tab_pages_length (s : TermState) (t : Handle) :
    (remove_tab s t).pages.length = (keysErase (keys s.pages) t).length := by
  rw [← length_keys, remove_tab_pages_keys]

theorem not_mem_keys_remove_tab (s : TermState) (t : Handle) :
    t ∉ keys (remove_tab s t).pages := by
  rw [remove_tab_pages_keys]
  exact not_mem_keysErase_self _ _

theorem remove_tab_of_not_mem (s : TermState) (t : Handle)
    (h : t ∉ keys s.pages) :
    remove_tab s t =
      { s with
        showTabs := decide (s.pages.length > 1)
        closeSignals :=
          if s.pages.length = 0 then s.closeSignals + 1 else s.closeSignals } := by
  unfold remove_tab
  rw [remove_tab_go_not_mem s.env t 0 s.page_meta h]

/-! Lemmas about labels, page lookup and set_current_page. -/

theorem lookupLabel_setTabLabel_self {ps : List (Handle × String)} {t : Handle}
    (lbl : String) (h : lookupLabel ps t ≠ none) :
    lookupLabel (setTabLabel ps t lbl) t = some lbl := by
  induction ps with
  | nil => exact absurd rfl h
  | cons p rest ih =>
    show lookupLabel ((if p.1 = t then (p.1, lbl) else p) :: setTabLabel rest t lbl)
      t = some lbl
    by_cases hp : p.1 = t
    · rw [if_pos hp, lookupLabel, if_pos hp]
    · rw [lookupLabel, if_neg hp] at h
      rw [if_neg hp, lookupLabel, if_neg hp]
      exact ih h

theorem lookupLabel_setTabLabel_ne {ps : List (Handle × String)} {t a : Handle}
    (lbl : String) (hne : a ≠ t) :
    lookupLabel (setTabLabel ps t lbl) a = lookupLabel ps a := by
  induction ps with
  | nil => rfl
  | cons p rest ih =>
    show lookupLabel ((if p.1 = t then (p.1, lbl) else p) :: setTabLabel rest t lbl)
      a = lookupLabel (p :: rest) a
    by_cases hp : p.1 = t
    · have hpa : ¬ p.1 = a := fun e => hne (e ▸ hp)
      rw [if_pos hp, lookupLabel, if_neg hpa, lookupLabel, if_neg hpa]
      exact ih
    · by_cases hpa : p.1 = a
      · rw [if_neg hp, lookupLabel, if_pos hpa, lookupLabel, if_pos hpa]
      · rw [if_neg hp, lookupLabel, if_neg hpa, lookupLabel, if_neg hpa]
        exact ih

theorem lookupLabel_ne_none_of_pageNumAux {ps : List (Handle × String)}
    {t : Handle} : ∀ {n num : Nat}, pageNumAux n ps t = some num →
    lookupLabel ps t ≠ none := by
  induction ps with
  | nil => intro n num h; cases h
  | cons p rest ih =>
    intro n num h
    by_cases hp : p.1 = t
    · rw [lookupLabel, if_pos hp]
      exact fun hx => Option.noConfusion hx
    · rw [pageNumAux, if_neg hp] at h
      rw [lookupLabel, if_neg hp]
      exact ih h

theorem set_current_page_pages (s : TermState) (p : Option Nat) :
    (set_current_page s p).pages = s.pages := by
  cases p <;> simp only [set_current_page] <;> split <;> rfl

theorem set_current_page_page_meta (s : TermState) (p : Option Nat) :
    (set_current_page s p).page_meta = s.page_meta := by
  cases p <;> simp only [set_current_page] <;> split <;> rfl

/-! Sample states used by concrete witnesses and counterexamples. They are
states the application itself builds: 1-based label numbering, labels of
titled tabs produced by the title handler, default labels otherwise. -/

/-- Three tabs titled a, b, c with pids recorded. -/
def sample3 : TermState :=
  { pages := [(10, "1. a"), (11, "2. b"), (12, "3. c")]
    currentPage := 2
    page_meta := [(10, Meta.mk (some 100)), (11, Meta.mk (some 101)),
      (12, Meta.mk (some 102))]
    env := Env.mk "u" "h" "/d"
    windowTitle := "c"
    closeSignals := 0
    showTabs := true }

/-- A single remaining tab. -/
def sample1 : TermState :=
  { pages := [(7, "1. sh")]
    currentPage := 0
    page_meta := [(7, Meta.mk (some 42))]
    env := Env.mk "u" "h" "/d"
    windowTitle := "sh"
    closeSignals := 0
    showTabs := false }

/-- Two tabs, the second one still Pending (no pid yet), the second page
active. -/
def samplePending : TermState :=
  { pages := [(1, "1. u@h:/d"), (2, "2. u@h:/d")]
    currentPage := 1
    page_meta := [(1, Meta.mk (some 50)), (2, Meta.mk none)]
    env := Env.mk "u" "h" "/d"
    windowTitle := ""
    closeSignals := 0
    showTabs := true }

/-! Spec-side formatter definitions, written from the words of the spec
(section 4.4) for comparison with the source formatter page_label. -/

/-- Spec formula for format_default: position, dot, space, then
user at host colon cwd. -/
def spec_format_default (position : Nat) (env : Env) : String :=
  toString position ++ ". " ++ env.user ++ "@" ++ env.host ++ ":" ++ env.cur_dir

/-- Spec formula for format_titled: position, dot, space, then the title. -/
def spec_format_titled (position : Nat) (title : String) : String :=
  toString position ++ ". " ++ title

/-! Preservation of well-formedness by the operations. -/

theorem StateWF_lengths {s : TermState} (hwf : StateWF s) :
    s.page_meta.length = s.pages.length := by
  have e : (keys s.page_meta).toFinset = (keys s.pages).toFinset := by
    apply Finset.ext
    intro a
    simp only [List.mem_toFinset]
    exact ⟨fun ha => hwf.2.2.2 a ha, fun ha => hwf.2.2.1 a ha⟩
  have h1 : (keys s.page_meta).length = (keys s.pages).length := by
    calc (keys s.page_meta).length
        = (keys s.page_meta).toFinset.card :=
          (List.toFinset_card_of_nodup hwf.2.1).symm
      _ = (keys s.pages).toFinset.card := by rw [e]
      _ = (keys s.pages).length := List.toFinset_card_of_nodup hwf.1
  rw [← length_keys s.page_meta, ← length_keys s.pages]
  exact h1

theorem StateWF_remove_tab {s : TermState} (t : Handle) (hwf : StateWF s) :
    StateWF (remove_tab s t) := by
  by_cases hm : t ∈ keys s.pages
  · refine ⟨?_, ?_, ?_, ?_⟩
    · rw [remove_tab_pages_keys]
      exact nodup_keysErase t hwf.1
    · rw [remove_tab_page_meta, if_pos hm, keys_metaRemove]
      exact nodup_keysErase t hwf.2.1
    · intro h hh
      rw [remove_tab_pages_keys, mem_keysErase] at hh
      rw [remove_tab_page_meta, if_pos hm, keys_metaRemove, mem_keysErase]
      exact ⟨hwf.2.2.1 h hh.1, hh.2⟩
    · intro h hh
      rw [remove_tab_page_meta, if_pos hm, keys_metaRemove, mem_keysErase] at hh
      rw [remove_tab_pages_keys, mem_keysErase]
      exact ⟨hwf.2.2.2 h hh.1, hh.2⟩
  · refine ⟨?_, ?_, ?_, ?_⟩
    · rw [remove_tab_pages_keys, keysErase_of_not_mem hm]
      exact hwf.1
    · rw [remove_tab_page_meta, if_neg hm]
      exact hwf.2.1
    · intro h hh
      rw [remove_tab_pages_keys, keysErase_of_not_mem hm] at hh
      rw [remove_tab_page_meta, if_neg hm]
      exact hwf.2.2.1 h hh
    · intro h hh
      rw [remove_tab_page_meta, if_neg hm] at hh
      rw [remove_tab_pages_keys, keysErase_of_not_mem hm]
      exact hwf.2.2.2 h hh

theorem StateWF_set_current_page (s : TermState) (p : Option Nat) :
    StateWF (set_current_page s p) ↔ StateWF s := by
  unfold StateWF
  rw [set_current_page_pages, set_current_page_page_meta]

theorem StateWF_add_new_tab {s s1 : TermState} {sh : String} {fresh : Handle}
    (hwf : StateWF s) (hfresh : fresh ∉ keys s.pages)
    (hadd : add_new_tab s (some sh) fresh = Except.ok s1) : StateWF s1 := by
  simp only [add_new_tab, new_terminal, Except.ok.injEq] at hadd
  rw [← hadd, StateWF_set_current_page]
  have hfm : fresh ∉ keys s.page_meta := fun hx => hfresh (hwf.2.2.2 fresh hx)
  have hkp : keys (s.pages ++
      [(fresh, page_label s.env (s.pages.length + 1) none)]) =
      keys s.pages ++ [fresh] := by
    rw [keys_append]
    rfl
  have hkm : keys (metaInsert s.page_meta fresh (Meta.mk none)) =
      keys s.page_meta ++ [fresh] := by
    rw [keys_metaInsert, if_neg hfm]
  refine ⟨?_, ?_, ?_, ?_⟩
  · show (keys (s.pages ++ _)).Nodup
    rw [hkp]
    simp [List.nodup_append, hwf.1, hfresh]
  · show (keys (metaInsert _ _ _)).Nodup
    rw [hkm]
    simp [List.nodup_append, hwf.2.1, hfm]
  · intro h hh
    rw [hkp, List.mem_append] at hh
    rw [hkm, List.mem_append]
    rcases hh with hh | hh
    · exact Or.inl (hwf.2.2.1 h hh)
    · exact Or.inr hh
  · intro h hh
    rw [hkm, List.mem_append] at hh
    rw [hkp, List.mem_append]
    rcases hh with hh | hh
    · exact Or.inl (hwf.2.2.2 h hh)
    · exact Or.inr hh

theorem StateWF_spawn_callback {s : TermState} (t : Handle) (pid : Int)
    (error : Option String) (hwf : StateWF s) :
    StateWF (spawn_callback s t pid error) := by
  unfold spawn_callback
  by_cases he : error.isSome
  · rw [if_pos he]
    exact StateWF_remove_tab t hwf
  · rw [if_neg he]
    by_cases hp : pid < 0
    · rw [if_pos hp]
      exact StateWF_remove_tab t hwf
    · rw [if_neg hp]
      refine ⟨hwf.1, ?_, ?_, ?_⟩
      · show (keys (metaSetPid _ _ _)).Nodup
        rw [keys_metaSetPid]
        exact hwf.2.1
      · intro h hh
        show h ∈ keys (metaSetPid _ _ _)
        rw [keys_metaSetPid]
        exact hwf.2.2.1 h hh
      · intro h hh
        rw [show keys (metaSetPid s.page_meta t pid.toNat) = keys s.page_meta
          from keys_metaSetPid _ _ _] at hh
        exact hwf.2.2.2 h hh

/-! Claim theorems. -/

/-- C7: the label formatter page_label is a pure deterministic function of its
inputs that realises the spec formulas: with a title it is format_titled of
position and title, without one it is format_default of position and the env
snapshot, and the two concrete spec examples hold. -/
theorem c7_formatter_contract :
    (∀ (env : Env) (n : Nat) (title : String),
      page_label env n (some title) = spec_format_titled n title) ∧
    (∀ (env : Env) (n : Nat), page_label env n none = spec_format_default n env) ∧
    spec_format_default 2 (Env.mk "alice" "h" "/tmp") = "2. alice@h:/tmp" ∧
    spec_format_titled 1 "vim" = "1. vim" := by
  refine ⟨fun env n title => rfl, fun env n => ?_, rfl, rfl⟩
  simp [page_label, spec_format_default, String.append_assoc]

/-- C5: an Alt+digit tab switch whose target index is out of range (the digit
exceeds the tab count) is a no-op: the state, in particular the active page,
is unchanged. -/
theorem c5_out_of_range_switch_noop (s : TermState) (d : Nat)
    (hd : s.pages.length < d) :
    (key_press s true (some d)).1 = s ∧
    (key_press s true (some d)).1.currentPage = s.currentPage := by
  have hd0 : ¬ d = 0 := by omega
  have hlt : ¬ d - 1 < s.pages.length := by omega
  refine ⟨?_, ?_⟩ <;> simp [key_press, set_current_page, hd0, hlt]

/-- C5 witness: switching to tab 9 among three tabs changes nothing. -/
theorem c5_witness : (key_press sample3 true (some 9)).1 = sample3 :=
  (c5_out_of_range_switch_noop sample3 9 (by decide)).1

/-- C10: Alt+digit 0 makes checked_sub underflow to none, which the binding
passes as -1, and gtk then switches to the last page; so Alt+0 is not ignored
but selects the last tab. -/
theorem c10_alt_zero_last_page (s : TermState) (h : s.pages ≠ []) :
    (key_press s true (some 0)).1.currentPage =
      ((s.pages.length - 1 : Nat) : Int) := by
  have hlen : ¬ s.pages.length = 0 := fun e => h (List.length_eq_zero.mp e)
  simp [key_press, set_current_page, hlen]

/-- C10 witness: Alt+0 on the three-tab sample selects page 2, the last one. -/
theorem c10_witness :
    (key_press sample3 true (some 0)).1.currentPage =
      ((sample3.pages.length - 1 : Nat) : Int) :=
  c10_alt_zero_last_page sample3 (by decide)

/-- C9: an unset SHELL is fatal for the whole application: the startup path
aborts, and any new-tab request with SHELL unset likewise aborts instead of
producing a successor state, so it is never handled as a per-session error
tearing down a single tab. -/
theorem c9_shell_missing_fatal :
    (∀ (env : Env) (fresh : Handle),
      Term_new env none fresh = Except.error Fatal.shellUnset) ∧
    (∀ (s : TermState) (fresh : Handle),
      add_new_tab s none fresh = Except.error Fatal.shellUnset) :=
  ⟨fun _ _ => rfl, fun _ _ => rfl⟩

/-- C2: removing the only remaining session empties the notebook and emits
exactly one window-close signal; removing one session out of more than one
(children being distinct widgets) emits none. -/
theorem c2_close_iff_empty :
    (∀ (s : TermState) (t : Handle) (lbl : String), s.pages = [(t, lbl)] →
      (remove_tab s t).closeSignals = s.closeSignals + 1 ∧
      (remove_tab s t).pages = []) ∧
    (∀ (s : TermState) (t : Handle), (keys s.pages).Nodup →
      t ∈ keys s.pages → 1 < s.pages.length →
      (remove_tab s t).closeSignals = s.closeSignals) := by
  constructor
  · intro s t lbl hp
    have hpages : (remove_tab s t).pages = [] := by
      rw [remove_tab_pages, hp]
      simp [remove_tab_go]
    refine ⟨?_, hpages⟩
    rw [remove_tab_closeSignals, hpages]
    simp
  · intro s t hnd hmem hlen
    have hlen2 : ¬ (remove_tab s t).pages.length = 0 := by
      rw [remove_tab_pages_length]
      have h1 := length_keysErase_of_mem hnd hmem
      rw [length_keys] at h1
      omega
    rw [remove_tab_closeSignals, if_neg hlen2]

/-- C2 witness: removing the single tab of sample1 closes once; removing one
of the three tabs of sample3 does not close. -/
theorem c2_witness :
    (remove_tab sample1 7).closeSignals = sample1.closeSignals + 1 ∧
    (remove_tab sample3 11).closeSignals = sample3.closeSignals :=
  ⟨(c2_close_iff_empty.1 sample1 7 "1. sh" (by decide)).1,
   c2_close_iff_empty.2 sample3 11 (by decide) (by decide) (by decide)⟩

/-- C6 counterexample to the claim as stated: after removing the only tab the
close signal has fired once; a second remove_tab with the same handle runs on
an empty notebook, and the n_pages = 0 branch fires close again, so the second
call does have an observable effect. -/
theorem c6_counterexample :
    (remove_tab sample1 7).closeSignals = 1 ∧
    (remove_tab (remove_tab sample1 7) 7).closeSignals = 2 := by decide

/-- C6 (amended): remove_tab is idempotent whenever the first call leaves the
registry non-empty: the second call with the same handle is the identity on
the whole state (registry, store, labels, close count). If the first call
emptied the registry, the second call changes nothing except re-emitting the
window-close signal. -/
theorem c6_remove_tab_idem (s : TermState) (t : Handle) :
    ((remove_tab s t).pages ≠ [] →
      remove_tab (remove_tab s t) t = remove_tab s t) ∧
    ((remove_tab s t).pages = [] →
      remove_tab (remove_tab s t) t =
        { remove_tab s t with
          closeSignals := (remove_tab s t).closeSignals + 1 }) := by
  have hnm : t ∉ keys (remove_tab s t).pages := not_mem_keys_remove_tab s t
  have hrw := remove_tab_of_not_mem (remove_tab s t) t hnm
  constructor
  · intro hne
    have hlen : ¬ (remove_tab s t).pages.length = 0 :=
      fun e => hne (List.length_eq_zero.mp e)
    rw [hrw, if_neg hlen, ← remove_tab_showTabs]
  · intro he
    have hlen : (remove_tab s t).pages.length = 0 := by rw [he]; rfl
    rw [hrw, if_pos hlen, ← remove_tab_showTabs]

/-- C6 witness: with three tabs, removing tab 11 twice equals removing it
once. -/
theorem c6_witness :
    remove_tab (remove_tab sample3 11) 11 = remove_tab sample3 11 :=
  (c6_remove_tab_idem sample3 11).1 (by decide)

/-- C1 counterexample to the claim as stated: on the app-built three-tab state
with titles a, b, c (labels lead with the 1-based numbers 1., 2., 3.),
removing the tab at position 1 leaves labels 1. a and 2. u@h:/d, not the
claimed 0./1. renumbering with titles preserved (which would read 0. a and
1. c): the leading numbers stay 1-based and the shifted tab loses its title
to the env default. -/
theorem c1_counterexample :
    (remove_tab sample3 11).pages.map Prod.snd = ["1. a", "2. u@h:/d"] ∧
    (remove_tab sample3 11).pages.map Prod.snd ≠ ["0. a", "1. c"] := by decide

/-- C1 (amended): removing the tab at position 1 of three shifts the later
slot down by one position; the slot before the removed one keeps its label
unchanged; the later slot is relabelled by page_label applied to its original
0-based index 2 (which equals its new 1-based display number) and no title, so
its title portion is reset to the env default rather than preserved; no close
is signalled. -/
theorem c1_remove_middle_relabels (s : TermState) (a b c : Handle)
    (la lb lc : String) (hp : s.pages = [(a, la), (b, lb), (c, lc)])
    (hab : a ≠ b) (hcb : c ≠ b) :
    (remove_tab s b).pages = [(a, la), (c, page_label s.env 2 none)] ∧
    (remove_tab s b).closeSignals = s.closeSignals := by
  have hpages : (remove_tab s b).pages =
      [(a, la), (c, page_label s.env 2 none)] := by
    rw [remove_tab_pages, hp]
    simp [remove_tab_go, hab, hcb]
  refine ⟨hpages, ?_⟩
  rw [remove_tab_closeSignals, hpages]
  simp

/-- C1 witness: the amended relabeling on the concrete three-tab state. -/
theorem c1_witness :
    (remove_tab sample3 11).pages =
      [(10, "1. a"), (12, page_label sample3.env 2 none)] ∧
    (remove_tab sample3 11).closeSignals = sample3.closeSignals :=
  c1_remove_middle_relabels sample3 10 11 12 "1. a" "2. b" "3. c" rfl
    (by decide) (by decide)

/-- C3: a spawn completion reporting an error or a pid below 0 takes exactly
the failure path: the resulting state is remove_tab of that session (removed
immediately, never Active); its meta record is gone, so no pid is ever stored
for it; it is no longer a notebook page; and every other session keeps its
meta record and its page membership. -/
theorem c3_spawn_failure_teardown (s : TermState) (t : Handle) (pid : Int)
    (error : Option String) (hwf : StateWF s) (hfail : error ≠ none ∨ pid < 0) :
    spawn_callback s t pid error = remove_tab s t ∧
    metaLookup (spawn_callback s t pid error).page_meta t = none ∧
    t ∉ keys (spawn_callback s t pid error).pages ∧
    (∀ h : Handle, h ≠ t →
      metaLookup (spawn_callback s t pid error).page_meta h =
        metaLookup s.page_meta h ∧
      (h ∈ keys (spawn_callback s t pid error).pages ↔ h ∈ keys s.pages)) := by
  have heq : spawn_callback s t pid error = remove_tab s t := by
    rcases hfail with he | hp
    · have hs : error.isSome := Option.ne_none_iff_isSome.mp he
      simp [spawn_callback, hs]
    · by_cases he : error.isSome
      · simp [spawn_callback, he]
      · simp [spawn_callback, he, hp]
  refine ⟨heq, ?_, ?_, ?_⟩
  · rw [heq, remove_tab_page_meta]
    by_cases hm : t ∈ keys s.pages
    · rw [if_pos hm]
      exact metaLookup_metaRemove_self _ _
    · rw [if_neg hm]
      exact metaLookup_eq_none_of_not_mem (fun hx => hm (hwf.2.2.2 t hx))
  · rw [heq]
    exact not_mem_keys_remove_tab s t
  · intro h hne
    constructor
    · rw [heq, remove_tab_page_meta]
      by_cases hm : t ∈ keys s.pages
      · rw [if_pos hm]
        exact metaLookup_metaRemove_ne hne
      · rw [if_neg hm]
    · rw [heq, remove_tab_pages_keys, mem_keysErase]
      exact ⟨fun hx => hx.1, fun hx => ⟨hx, hne⟩⟩

/-- C3 witness: the Pending session 2 of samplePending fails its spawn with
pid -1; its tab is removed and its meta record is gone. -/
theorem c3_witness :
    spawn_callback samplePending 2 (-1) none = remove_tab samplePending 2 ∧
    metaLookup (spawn_callback samplePending 2 (-1) none).page_meta 2 = none := by
  have h := c3_spawn_failure_teardown samplePending 2 (-1) none (by decide)
    (Or.inr (by decide))
  exact ⟨h.1, h.2.1⟩

/-- C4 counterexample to the claim as stated: in samplePending the active page
is 1 but session 1 sits at page 0; its title change still reaches the window
chrome, so propagation is not conditional on being the active tab. -/
theorem c4_counterexample :
    pageNum samplePending.pages 1 = some 0 ∧
    samplePending.currentPage ≠ (0 : Int) ∧
    (title_notify samplePending 1 (some "vim")).windowTitle = "vim" ∧
    samplePending.windowTitle ≠ "vim" := by decide

/-- C4 (amended): a title change for a session found at page index num
rebuilds its tab label as page_label of its 1-based display number num + 1 and
the new title, leaves all other labels unchanged, and propagates the title to
the window chrome unconditionally, whether or not the session is the active
tab. -/
theorem c4_title_change (s : TermState) (t : Handle) (title : String)
    (num : Nat) (hnum : pageNum s.pages t = some num) :
    (title_notify s t (some title)).windowTitle = title ∧
    lookupLabel (title_notify s t (some title)).pages t =
      some (page_label s.env (num + 1) (some title)) ∧
    (∀ h : Handle, h ≠ t →
      lookupLabel (title_notify s t (some title)).pages h =
        lookupLabel s.pages h) := by
  have hrw : title_notify s t (some title) =
      { s with
        pages := setTabLabel s.pages t (page_label s.env (num + 1) (some title))
        windowTitle := title } := by
    simp [title_notify, hnum]
  refine ⟨by rw [hrw], ?_, ?_⟩
  · rw [hrw]
    exact lookupLabel_setTabLabel_self _ (lookupLabel_ne_none_of_pageNumAux hnum)
  · intro h hne
    rw [hrw]
    exact lookupLabel_setTabLabel_ne _ hne

/-- C4 witness: the title change of session 1 at page 0 relabels it as
page_label 1 vim and sets the window title. -/
theorem c4_witness :
    (title_notify samplePending 1 (some "vim")).windowTitle = "vim" ∧
    lookupLabel (title_notify samplePending 1 (some "vim")).pages 1 =
      some (page_label samplePending.env 1 (some "vim")) := by
  have h := c4_title_change samplePending 1 "vim" 0 (by decide)
  exact ⟨h.1, h.2.1⟩

/-- C8: in a well-formed state the metadata store and the notebook have the
same size, and well-formedness is preserved by tab insertion (with a fresh
widget handle), tab removal, and the spawn callback in both its success and
failure branches; so sessions and tab slots are created and destroyed
together. -/
theorem c8_store_matches_registry :
    (∀ s : TermState, StateWF s → s.page_meta.length = s.pages.length) ∧
    (∀ (s s1 : TermState) (sh : String) (fresh : Handle), StateWF s →
      fresh ∉ keys s.pages → add_new_tab s (some sh) fresh = Except.ok s1 →
      StateWF s1) ∧
    (∀ (s : TermState) (t : Handle), StateWF s → StateWF (remove_tab s t)) ∧
    (∀ (s : TermState) (t : Handle) (pid : Int) (error : Option String),
      StateWF s → StateWF (spawn_callback s t pid error)) :=
  ⟨fun _ hwf => StateWF_lengths hwf,
   fun _ _ _ _ hwf hfresh hadd => StateWF_add_new_tab hwf hfresh hadd,
   fun _ t hwf => StateWF_remove_tab t hwf,
   fun _ t pid error hwf => StateWF_spawn_callback t pid error hwf⟩

/-- C8 witness: sample3 is well-formed, its store and registry sizes agree,
and removal keeps it well-formed. -/
theorem c8_witness :
    sample3.page_meta.length = sample3.pages.length ∧
    StateWF (remove_tab sample3 11) ∧
    StateWF (spawn_callback sample3 12 (-1) none) :=
  ⟨c8_store_matches_registry.1 sample3 (by decide),
   c8_store_matches_registry.2.2.1 sample3 11 (by decide),
   c8_store_matches_registry.2.2.2 sample3 12 (-1) none (by decide)⟩

end PT
